import Mathlib

/-!
# A verification development for the `kmodules.xyz/prober` probe executor

This file gives a shallow embedding, in Lean, of the core of the
`kmodules.xyz/prober` repository: the probe dispatcher and port resolution
(`probe/prober.go`), the shared HTTP probe executor and redirect policy
(`probe/http/common.go`), and the HTTP POST request construction
(`probe/http/http_post.go`), together with the fragment of Go's `net/url`
and `net/http` standard-library behaviour that those functions lean on.
Machine integers are modelled as `Int` (no arithmetic here ever overflows a
Go `int`), Go's `(value, error)` multi-returns become pairs with an
`Option String` error component, and the HTTP transport is an explicit
oracle argument.

Theorems about the embedded definitions follow the definitions.
-/

namespace KmodProber

/-- `probe.Result` / `api.Result`: the four probe outcome states. -/
inductive Result where
  | unknown
  | success
  | failure
  | warning
deriving DecidableEq, Repr

/-- The `(Result, string, error)` triple returned by every probe entry point. -/
structure ProbeOutcome where
  result : Result
  output : String
  error : Option String
deriving DecidableEq, Repr

/-- `intstr.IntOrString`: a numeric-or-named port reference. -/
inductive IntOrString where
  | int (i : Int)
  | str (s : String)
deriving DecidableEq, Repr

/-- `core.ContainerPort`: one declared port of a container (int32 field). -/
structure ContainerPort where
  name : String
  containerPort : Int
deriving DecidableEq, Repr

/-- `core.Container`: the container metadata used by port resolution. -/
structure Container where
  name : String
  ports : List ContainerPort
deriving DecidableEq, Repr

/-- `findPortByName` (probe/prober.go): look up a port in a container by
name, scanning the declared ports in order and returning the first exact
match. -/
def findPortByName (container : Container) (portName : String) :
    Except String Int :=
  match container.ports.find? (fun port => port.name = portName) with
  | some port => .ok port.containerPort
  | none => .error ("port " ++ portName ++ " not found")

/-- Decimal digit run accumulator used by the `strconv.Atoi` model. -/
def parseDigits (acc : Int) : List Char → Option Int
  | [] => some acc
  | c :: cs =>
    if '0' ≤ c ∧ c ≤ '9' then
      parseDigits (acc * 10 + ((c.toNat : Int) - ('0'.toNat : Int))) cs
    else none

/-- `strconv.Atoi`: optional sign followed by a nonempty decimal digit run;
anything else is a syntax error (Go then returns the zero value `0`).
Int64-range overflow clamping is not modelled: no probe input approaches it. -/
def goAtoi (s : String) : Except String Int :=
  let errv : Except String Int :=
    .error ("strconv.Atoi: parsing \"" ++ s ++ "\": invalid syntax")
  match s.data with
  | [] => errv
  | '-' :: rest =>
    match rest, parseDigits 0 rest with
    | _ :: _, some n => .ok (-n)
    | _, _ => errv
  | '+' :: rest =>
    match rest, parseDigits 0 rest with
    | _ :: _, some n => .ok n
    | _, _ => errv
  | l =>
    match parseDigits 0 l with
    | some n => .ok n
    | none => errv

/-- `extractPort` (probe/prober.go): resolve a numeric-or-named port
reference against a container.  A numeric reference is used directly; a
string reference is first looked up among the container's declared port
names and, failing that, parsed as a decimal integer (`strconv.Atoi`
returns `0` alongside its error, and that error is returned before any
range check).  Every successfully resolved value is then range-checked
against `0 < port < 65536`. -/
def extractPort (param : IntOrString) (container : Container) :
    Int × Option String :=
  let resolved : Except String Int :=
    match param with
    | .int i => .ok i
    | .str s =>
      match findPortByName container s with
      | .ok p => .ok p
      | .error _ => goAtoi s
  match resolved with
  | .error e => (0, some e)
  | .ok port =>
    if port > 0 ∧ port < 65536 then (port, none)
    else (port, some ("invalid port number: " ++ toString port))

/-! ## The shared HTTP probe executor (probe/http/common.go)

Go's `http.Header` is a `map[string][]string`; it is modelled as an
association list with unique keys.  A nil map is distinguished from an
empty one by an `Option` wrapper, because `doHTTPProbe` branches on
`headers == nil`. -/

/-- `http.Header`: header names to lists of values. -/
abbrev HeaderMap := List (String × List String)

/-- Key-presence test (`_, ok := headers[k]`); reading a nil Go map simply
reports absence. -/
def headerHas (headers : Option HeaderMap) (k : String) : Bool :=
  match headers with
  | none => false
  | some h => h.any (fun e => e.1 = k)

/-- `Header.Set`: replace the values of `k` by the single value `v`
(header names used by the probe code are already in canonical form, so
MIME canonicalisation is a no-op and is not modelled). -/
def headerSet : HeaderMap → String → String → HeaderMap
  | [], k, v => [(k, [v])]
  | (k', vs) :: rest, k, v =>
    if k' = k then (k, [v]) :: rest else (k', vs) :: headerSet rest k v

/-- `Header.Get`: the first value of `k`, or `""` when absent. -/
def headerGet (h : HeaderMap) (k : String) : String :=
  match h.find? (fun e => e.1 = k) with
  | some (_, v :: _) => v
  | _ => ""

/-- `headers[name] = append(headers[name], value)`: the direct map update
performed by `buildHeader`. -/
def headerAppendValue : HeaderMap → String → String → HeaderMap
  | [], k, v => [(k, [v])]
  | (k', vs) :: rest, k, v =>
    if k' = k then (k', vs ++ [v]) :: rest
    else (k', vs) :: headerAppendValue rest k v

/-- `buildHeader` (probe/prober.go): turn the handler's `<name, value>`
pairs into a populated header map. -/
def buildHeader (headerList : List (String × String)) : HeaderMap :=
  headerList.foldl (fun h p => headerAppendValue h p.1 p.2) []

/-- The slice of a `url.URL` that the redirect machinery inspects:
`URL.Hostname()` plus the rest of the request target. -/
structure SimpleURL where
  hostname : String
  path : String
deriving DecidableEq, Repr

/-- An `http.Response` as seen by the probe: status code, the body read
outcome (an IO error, or the full bytes the server sent), and
`location = some target` exactly when the response is one of the
redirect statuses (301/302/303/307/308) carrying a `Location` header. -/
structure NetResponse where
  statusCode : Int
  body : Except String (List Char)
  location : Option SimpleURL
deriving Repr

/-- An `http.Request` as far as the probe code reads or writes it. -/
structure Request where
  method : String
  urlStr : String
  host : String
  header : HeaderMap
  body : Option String
deriving DecidableEq, Repr

/-- Modelled from the spec: `maxRespBodyLength`, the fixed maximum
response-body byte budget of §4.3 step 4.  The constant's defining file
(probe/http/http_get.go) is absent from the sources; the canonical budget
of 10 KiB referenced by the payload-truncation tests is used. -/
def maxRespBodyLength : Nat := 10 * 1024

/-- `utilio.ReadAtMost(r, limit)`: read through a `LimitedReader`, so at
most `limit` bytes come back, and report `ErrLimitReached` (the `Bool`)
whenever exactly `limit` bytes were read — also when the stream held
exactly `limit` bytes. -/
def readAtMost (data : List Char) (limit : Nat) : List Char × Bool :=
  let d := data.take limit
  (d, d.length = limit)

/-- Lines 21–31 of probe/http/common.go: default the `User-Agent` header
when its key is absent (replacing a nil map by a fresh one first), install
the header map on the request, and override the request host when a
non-empty `Host` header value is present. -/
def effectiveRequest (req : Request) (headers : Option HeaderMap) : Request :=
  let hs : HeaderMap :=
    if headerHas headers "User-Agent" then headers.getD []
    else headerSet (headers.getD []) "User-Agent"
      "kmodules.xyz/client-go/release-11.0"
  let req' := { req with header := hs }
  if headerGet hs "Host" ≠ "" then { req' with host := headerGet hs "Host" }
  else req'

/-- `doHTTPProbe` (probe/http/common.go): send the prepared request
through the client; convert a client error into `Failure` with the error
text as diagnostic and a nil error; read the body through `ReadAtMost`,
treating only `ErrLimitReached` as non-fatal; then classify the status
code: `[200,300)` ⇒ Success, `[300,400)` ⇒ Warning with the body,
anything else ⇒ Failure with a synthesized diagnostic.  (The `url`
parameter of the Go function feeds only log lines and is dropped.) -/
def doHTTPProbe (req : Request) (headers : Option HeaderMap)
    (client : Request → Except String NetResponse) : ProbeOutcome :=
  match client (effectiveRequest req headers) with
  | .error e => ⟨.failure, e, none⟩
  | .ok res =>
    match res.body with
    | .error e => ⟨.failure, "", some e⟩
    | .ok data =>
      let b := (readAtMost data maxRespBodyLength).1
      let respBody := String.mk b
      if 200 ≤ res.statusCode ∧ res.statusCode < 400 then
        if 300 ≤ res.statusCode then ⟨.warning, respBody, none⟩
        else ⟨.success, respBody, none⟩
      else
        ⟨.failure, "HTTP probe failed with statuscode: " ++
          toString res.statusCode, none⟩

/-! ## Redirect policy (probe/http/common.go) and the client loop -/

/-- The three things a `CheckRedirect` function can answer: follow the
redirect (nil error), `http.ErrUseLastResponse`, or a terminal error. -/
inductive CheckerOutcome where
  | follow
  | useLastResponse
  | checkErr (msg : String)
deriving DecidableEq, Repr

/-- The closure installed by `redirectChecker(false)`: refuse (returning
the last response) when the target hostname differs from the first
request in the chain, and fail outright after 10 redirects.  Go
guarantees `via` is nonempty when the checker runs; `via[0]` is modelled
with a default head. -/
def localRedirectChecker (req : SimpleURL) (via : List SimpleURL) :
    CheckerOutcome :=
  if req.hostname ≠ (via.headD ⟨"", ""⟩).hostname then .useLastResponse
  else if 10 ≤ via.length then .checkErr "stopped after 10 redirects"
  else .follow

/-- `redirectChecker` (probe/http/common.go): `none` (the client's default
policy) when non-local redirects are followed, the locality-restricting
closure otherwise. -/
def redirectChecker (followNonLocalRedirects : Bool) :
    Option (SimpleURL → List SimpleURL → CheckerOutcome) :=
  if followNonLocalRedirects then none
  else some localRedirectChecker

/-- net/http's default redirect policy, used when `CheckRedirect` is nil:
stop with an error after 10 redirects. -/
def defaultCheckRedirect (req : SimpleURL) (via : List SimpleURL) :
    CheckerOutcome :=
  if 10 ≤ via.length then .checkErr "stopped after 10 redirects"
  else (fun _ => .follow) req

/-- `http.Client.Do` restricted to what the probes exercise: issue the
request, and while the response is a redirect consult the installed (or
default) checker with the target and the requests sent so far.
`ErrUseLastResponse` returns the redirect response itself with a nil
error; any other checker error is returned as the call's error (Go wraps
it in a `url.Error` and also hands back the previous response, but
`doHTTPProbe` only ever looks at the error's presence and text).  `fuel`
bounds the recursion; every policy built above terminates within 10
redirects, so theorems instantiate it generously. -/
def clientDo (checker : Option (SimpleURL → List SimpleURL → CheckerOutcome))
    (net : SimpleURL → NetResponse) :
    Nat → SimpleURL → List SimpleURL → Except String NetResponse
  | 0, _, _ => .error "net/http: request canceled"
  | fuel + 1, u, via =>
    let resp := net u
    match resp.location with
    | none => .ok resp
    | some loc =>
      match (checker.getD defaultCheckRedirect) loc (via ++ [u]) with
      | .follow => clientDo checker net fuel loc (via ++ [u])
      | .useLastResponse => .ok resp
      | .checkErr e => .error e

/-- Modelled from the spec: the GET request built by `DoHTTPGetProbe`
(probe/http/http_get.go is absent from the sources; §4.3 step 6: GET
requests carry no body). -/
def mkGetRequest (urlStr : String) : Request :=
  ⟨"GET", urlStr, "", [], none⟩

/-- `httpGetProber.Probe`: a client with `CheckRedirect :=
redirectChecker(followNonLocalRedirects)` driving the shared executor
over the GET request for the target URL. -/
def httpGetProbe (followNonLocalRedirects : Bool)
    (net : SimpleURL → NetResponse) (fuel : Nat) (u : SimpleURL)
    (headers : Option HeaderMap) : ProbeOutcome :=
  doHTTPProbe (mkGetRequest (u.hostname ++ u.path)) headers
    (fun _ => clientDo (redirectChecker followNonLocalRedirects) net fuel u [])

/-! ## The `net/url` fragment behind `formatURL`

`formatURL` (probe/prober.go) delegates all interesting behaviour to
`url.Parse`, `url.URL.String` and `net.JoinHostPort`.  The model below
follows the Go 1.12-era `net/url` source for the inputs a probe path can
be (ASCII request targets without deep authority validation; host
unescaping and userinfo validation are omitted, as the dispatcher
overwrites the host afterwards anyway). -/

/-- ASCII letter or digit. -/
def isAlphaNumChar (c : Char) : Bool :=
  ('a' ≤ c ∧ c ≤ 'z') ∨ ('A' ≤ c ∧ c ≤ 'Z') ∨ ('0' ≤ c ∧ c ≤ '9')

/-- ASCII letter. -/
def isAlphaChar (c : Char) : Bool :=
  ('a' ≤ c ∧ c ≤ 'z') ∨ ('A' ≤ c ∧ c ≤ 'Z')

/-- ASCII digit. -/
def isDigitChar (c : Char) : Bool := '0' ≤ c ∧ c ≤ '9'

/-- The `net/url` escaping modes exercised by `formatURL`. -/
inductive EncodeMode where
  | path
  | host
  | queryComponent
  | fragment
deriving DecidableEq, Repr

/-- `net/url.shouldEscape` for the four modes above. -/
def shouldEscape (c : Char) (mode : EncodeMode) : Bool :=
  if isAlphaNumChar c then false
  else if mode = .host ∧
      c ∈ ['!', '$', '&', '\'', '(', ')', '*', '+', ',', ';', '=', ':',
           '[', ']', '<', '>', '"'] then false
  else if c ∈ ['-', '_', '.', '~'] then false
  else if c ∈ ['$', '&', '+', ',', '/', ':', ';', '=', '?', '@'] then
    match mode with
    | .path => c = '?'
    | .queryComponent => true
    | .fragment => false
    | .host => true
  else if mode = .fragment ∧ c ∈ ['!', '(', ')', '*'] then false
  else true

/-- Upper-case hex digit of a value below 16. -/
def hexUpperDigit (n : Nat) : Char :=
  if n < 10 then Char.ofNat ('0'.toNat + n)
  else Char.ofNat ('A'.toNat + n - 10)

/-- `%XX` form of an (ASCII) character. -/
def escapeChar (c : Char) : List Char :=
  ['%', hexUpperDigit (c.toNat / 16 % 16), hexUpperDigit (c.toNat % 16)]

/-- `net/url.escape`: percent-encode the characters `shouldEscape`
selects; in query components a space becomes `+`. -/
def escapeList (mode : EncodeMode) : List Char → List Char
  | [] => []
  | c :: cs =>
    (if shouldEscape c mode then
       if c = ' ' ∧ mode = .queryComponent then ['+'] else escapeChar c
     else [c]) ++ escapeList mode cs

/-- Hex digit test. -/
def isHexDigit (c : Char) : Bool :=
  isDigitChar c ∨ ('a' ≤ c ∧ c ≤ 'f') ∨ ('A' ≤ c ∧ c ≤ 'F')

/-- Hex digit value. -/
def hexVal (c : Char) : Nat :=
  if isDigitChar c then c.toNat - '0'.toNat
  else if 'a' ≤ c ∧ c ≤ 'f' then c.toNat - 'a'.toNat + 10
  else c.toNat - 'A'.toNat + 10

/-- `net/url.unescape`: percent-decode, failing on a `%` not followed by
two hex digits (`EscapeError`); in query components `+` decodes to a
space. -/
def unescapeList (mode : EncodeMode) : List Char → Except String (List Char)
  | [] => .ok []
  | c :: rest =>
    if c = '%' then
      match rest with
      | a :: b :: rest' =>
        if isHexDigit a ∧ isHexDigit b then
          (unescapeList mode rest').map (Char.ofNat (16 * hexVal a + hexVal b) :: ·)
        else .error ("invalid URL escape \"" ++ String.mk ['%', a, b] ++ "\"")
      | _ => .error ("invalid URL escape \"" ++ String.mk ('%' :: rest) ++ "\"")
    else if c = '+' ∧ mode = .queryComponent then
      (unescapeList mode rest).map (' ' :: ·)
    else (unescapeList mode rest).map (c :: ·)

/-- `net/url.validEncoded`: may this string be served as `RawPath`? -/
def validEncoded (l : List Char) (mode : EncodeMode) : Bool :=
  l.all fun c =>
    c ∈ ['!', '$', '&', '\'', '(', ')', '*', '+', ',', ';', '=', ':', '@',
         '[', ']', '%'] ∨ ¬ shouldEscape c mode

/-- `url.URL` (the fields `formatURL` and `String` touch). -/
structure GoURL where
  scheme : String := ""
  opaquePart : String := ""
  userinfo : String := ""
  host : String := ""
  path : String := ""
  rawPath : String := ""
  forceQuery : Bool := false
  rawQuery : String := ""
  fragment : String := ""
deriving DecidableEq, Repr

/-- Split at the first occurrence of `sep`, consuming it; `none` when
`sep` does not occur (Go's `split(s, sep, true)`). -/
def cutAt (sep : Char) : List Char → List Char × Option (List Char)
  | [] => ([], none)
  | c :: rest =>
    if c = sep then ([], some rest)
    else
      let (a, b) := cutAt sep rest
      (c :: a, b)

/-- Split at the first `/`, keeping it on the right (Go's
`split(s, "/", false)`). -/
def splitKeepSlash : List Char → List Char × List Char
  | [] => ([], [])
  | c :: rest =>
    if c = '/' then ([], c :: rest)
    else
      let (a, b) := splitKeepSlash rest
      (c :: a, b)

/-- Authority → (userinfo, host): cut at the last `@`. -/
def splitUserinfo (auth : List Char) : List Char × List Char :=
  match cutAt '@' auth.reverse with
  | (revHost, some revUser) => (revUser.reverse, revHost.reverse)
  | (_, none) => ([], auth)

/-- `net/url.getScheme`: `some (scheme, rest)` when a valid scheme prefix
ends in `:`, `none` when the string has no scheme, an error for a
leading `:`. -/
def getSchemeAux (acc : List Char) :
    List Char → Except String (Option (List Char × List Char))
  | [] => .ok none
  | c :: rest =>
    if isAlphaChar c then getSchemeAux (acc ++ [c]) rest
    else if isDigitChar c ∨ c ∈ ['+', '-', '.'] then
      if acc = [] then .ok none else getSchemeAux (acc ++ [c]) rest
    else if c = ':' then
      if acc = [] then .error "missing protocol scheme"
      else .ok (some (acc, rest))
    else .ok none

/-- ASCII lower-casing (`strings.ToLower` on scheme names). -/
def toLowerList (l : List Char) : List Char :=
  l.map fun c => if 'A' ≤ c ∧ c ≤ 'Z' then Char.ofNat (c.toNat + 32) else c

/-- Control byte test (`stringContainsCTLByte`). -/
def containsCTL (l : List Char) : Bool :=
  l.any fun c => c.toNat < 0x20 ∨ c.toNat = 0x7f

/-- The ForceQuery / RawQuery split of `net/url.parse`: a single trailing
`?` sets ForceQuery, otherwise the string is cut at the first `?`. -/
def splitQuery (l : List Char) : List Char × Bool × List Char :=
  if l.getLast? = some '?' ∧ l.count '?' = 1 then (l.dropLast, true, [])
  else
    match cutAt '?' l with
    | (a, some q) => (a, false, q)
    | (a, none) => (a, false, [])

/-- `URL.setPath`: unescape into `Path`, remembering the original in
`RawPath` when it is not the canonical escaping. -/
def setPathParts (p : List Char) : Except String (List Char × List Char) :=
  (unescapeList .path p).map fun path =>
    (path, if p = escapeList .path path then [] else p)

/-- `net/url.parse` with `viaRequest = false`, for the pre-fragment part
of the URL (the source's early returns are linearised into an if-chain). -/
def urlParseMain (raw : List Char) : Except String GoURL :=
  if containsCTL raw then
    .error "net/url: invalid control character in URL"
  else
    match getSchemeAux [] raw with
    | .error e => .error e
    | .ok schemeSplit =>
      let (scheme, rest1) :=
        match schemeSplit with
        | none => (([] : List Char), raw)
        | some p => p
      let scheme := toLowerList scheme
      let (rest2, forceQuery, rawQuery) := splitQuery rest1
      if rest2.head? ≠ some '/' ∧ scheme ≠ [] then
        .ok { scheme := String.mk scheme, opaquePart := String.mk rest2,
              forceQuery := forceQuery, rawQuery := String.mk rawQuery }
      else if rest2.head? ≠ some '/' ∧ ((cutAt '/' rest2).1).contains ':' then
        .error "first path segment in URL cannot contain colon"
      else
        let hasAuthority :=
          (scheme ≠ [] ∨ ¬ (rest2.take 3 = ['/', '/', '/'])) ∧
            rest2.take 2 = ['/', '/']
        let (ui, host, rest3) :=
          if hasAuthority then
            let (auth, after) := splitKeepSlash (rest2.drop 2)
            let (ui, h) := splitUserinfo auth
            (ui, h, after)
          else ([], [], rest2)
        match setPathParts rest3 with
        | .error e => .error e
        | .ok (path, rawPath) =>
          .ok { scheme := String.mk scheme, userinfo := String.mk ui,
                host := String.mk host, path := String.mk path,
                rawPath := String.mk rawPath, forceQuery := forceQuery,
                rawQuery := String.mk rawQuery }

/-- `url.Parse`: split off the fragment, parse the rest, then unescape a
nonempty fragment. -/
def urlParse (rawURL : String) : Except String GoURL :=
  let (before, fragOpt) := cutAt '#' rawURL.data
  match urlParseMain before with
  | .error e => .error e
  | .ok u =>
    match fragOpt with
    | none => .ok u
    | some [] => .ok u
    | some frag =>
      (unescapeList .fragment frag).map fun f => { u with fragment := String.mk f }

/-- Does `RawPath` qualify as a valid encoding of `Path`? -/
def rawPathValid (u : GoURL) : Bool :=
  u.rawPath != "" && validEncoded u.rawPath.data .path &&
    (match unescapeList .path u.rawPath.data with
     | .ok p => p = u.path.data
     | .error _ => false)

/-- `URL.EscapedPath`: serve `RawPath` when it is a valid encoding of
`Path`, else re-escape `Path`. -/
def escapedPath (u : GoURL) : String :=
  if rawPathValid u then u.rawPath
  else String.mk (escapeList .path u.path.data)

/-- `URL.String` (Go 1.12 era): scheme, then either the opaque part or
`//` authority + escaped path (with a `/` inserted before a rootless path
when a host is present, and `./` before a relative first segment with a
colon), then `?query` and `#fragment`. -/
def urlString (u : GoURL) : String :=
  let schemePart := if u.scheme ≠ "" then u.scheme ++ ":" else ""
  let core :=
    if u.opaquePart ≠ "" then schemePart ++ u.opaquePart
    else
      let hostPart :=
        if u.scheme ≠ "" ∨ u.host ≠ "" ∨ u.userinfo ≠ "" then
          (if u.host ≠ "" ∨ u.path ≠ "" ∨ u.userinfo ≠ "" then "//" else "") ++
          (if u.userinfo ≠ "" then u.userinfo ++ "@" else "") ++
          String.mk (escapeList .host u.host.data)
        else ""
      let path := escapedPath u
      let slash :=
        if path ≠ "" ∧ path.data.head? ≠ some '/' ∧ u.host ≠ "" then "/"
        else ""
      let relColon : Bool :=
        match cutAt ':' path.data with
        | (seg, some _) => ¬ seg.contains '/'
        | (_, none) => false
      let dotSeg :=
        if schemePart ++ hostPart = "" ∧ relColon then "./" else ""
      schemePart ++ hostPart ++ dotSeg ++ slash ++ path
  core ++ (if u.forceQuery ∨ u.rawQuery ≠ "" then "?" ++ u.rawQuery else "") ++
    (if u.fragment ≠ "" then
       "#" ++ String.mk (escapeList .fragment u.fragment.data)
     else "")

/-- `net.JoinHostPort`: bracket the host when it contains a colon. -/
def joinHostPort (host port : String) : String :=
  if host.data.contains ':' then "[" ++ host ++ "]:" ++ port
  else host ++ ":" ++ port

/-- `formatURL` (probe/prober.go): parse the path — falling back to a URL
whose `Path` field carries the path verbatim when parsing fails — then
overwrite scheme and host with the resolved values. -/
def formatURL (scheme host : String) (port : Int) (path : String) : GoURL :=
  let u : GoURL :=
    match urlParse path with
    | .ok u => u
    | .error _ => { path := path }
  { u with scheme := scheme, host := joinHostPort host (toString port) }

/-! ## HTTP POST request construction (probe/http/http_post.go) -/

/-- `url.QueryEscape`. -/
def queryEscape (s : String) : String :=
  String.mk (escapeList .queryComponent s.data)

/-- `url.Values.Encode`: keys sorted, each value emitted as
`escapedKey=escapedValue`, joined by `&`.  `url.Values` is a Go map, so
the association list is assumed to bind each key once. -/
def urlValuesEncode (v : List (String × List String)) : String :=
  let keys := (v.map Prod.fst).mergeSort (fun a b => decide (a ≤ b))
  let pairs := (keys.map fun k =>
    match v.find? (fun e => e.1 = k) with
    | some (_, vs) => vs.map fun w => queryEscape k ++ "=" ++ queryEscape w
    | none => []).flatten
  String.intercalate "&" pairs

/-- The request built by `DoHTTPPostProbe` (probe/http/http_post.go):
a non-nil form wins and carries its URL encoding with
`Content-Type: application/x-www-form-urlencoded`; else a nonempty raw
body is carried with `Content-Type: application/json`; else the request
has no body.  (`http.NewRequest` re-parses `url.String()`, which cannot
fail for a URL the dispatcher just built, so its error branches are not
modelled.) -/
def mkPostRequest (u : GoURL) (form : Option (List (String × List String)))
    (body : String) : Request :=
  match form with
  | some f =>
    { method := "POST", urlStr := urlString u, host := "",
      header := headerSet [] "Content-Type" "application/x-www-form-urlencoded",
      body := some (urlValuesEncode f) }
  | none =>
    if body.length > 0 then
      { method := "POST", urlStr := urlString u, host := "",
        header := headerSet [] "Content-Type" "application/json",
        body := some body }
    else
      { method := "POST", urlStr := urlString u, host := "",
        header := [], body := none }

/-- `DoHTTPPostProbe`: build the POST request and delegate to the shared
executor. -/
def DoHTTPPostProbe (u : GoURL) (headers : Option HeaderMap)
    (client : Request → Except String NetResponse)
    (form : Option (List (String × List String))) (body : String) :
    ProbeOutcome :=
  doHTTPProbe (mkPostRequest u form body) headers client

/-! ## The dispatcher (probe/prober.go) -/

/-- `core.ExecAction`. -/
structure ExecAction where
  command : List String
deriving DecidableEq, Repr

/-- `core.HTTPGetAction` (the fields the dispatcher reads). -/
structure HTTPGetAction where
  path : String := ""
  port : IntOrString
  host : String := ""
  scheme : String := ""
  httpHeaders : List (String × String) := []
deriving DecidableEq, Repr

/-- `api/v1.HTTPPostAction`. -/
structure HTTPPostAction where
  path : String := ""
  port : IntOrString
  host : String := ""
  scheme : String := ""
  httpHeaders : List (String × String) := []
  body : String := ""
  form : Option (List (String × List String)) := none
deriving DecidableEq, Repr

/-- `core.TCPSocketAction`. -/
structure TCPSocketAction where
  port : IntOrString
  host : String := ""
deriving DecidableEq, Repr

/-- `api/v1.Handler`: four optional variants; the dispatcher picks the
first populated one in the order exec, httpGet, httpPost, tcpSocket. -/
structure Handler where
  exec : Option ExecAction := none
  httpGet : Option HTTPGetAction := none
  httpPost : Option HTTPPostAction := none
  tcpSocket : Option TCPSocketAction := none
deriving DecidableEq, Repr

/-- The pod identity fields `formatPod` prints. -/
structure Pod where
  name : String := ""
  podNamespace : String := ""
  uid : String := ""
deriving DecidableEq, Repr

/-- `core.PodStatus` (only `PodIP` is read). -/
structure PodStatus where
  podIP : String := ""
deriving DecidableEq, Repr

/-- `podDesc` (probe/prober.go). -/
def podDesc (podName podNamespace podUID : String) : String :=
  podName ++ "_" ++ podNamespace ++ "(" ++ podUID ++ ")"

/-- `formatPod` (probe/prober.go). -/
def formatPod (pod : Pod) : String :=
  podDesc pod.name pod.podNamespace pod.uid

/-- `Prober.RunProbe` (probe/prober.go): select the first populated
handler variant.  The exec collaborator, the HTTP transport and the TCP
prober are oracle parameters (their implementations live outside this
core); everything else — host defaulting, port resolution, URL and
header construction, and the shared HTTP executor — is the dispatcher's
own code.  A port-resolution error returns `(Unknown, "", err)`; an
unpopulated handler returns the `missing probe handler` error. -/
def runProbe (p : Handler) (pod : Pod) (status : PodStatus)
    (container : Container) (execProbe : List String → ProbeOutcome)
    (client : Request → Except String NetResponse)
    (tcpProbe : String → Int → ProbeOutcome) : ProbeOutcome :=
  match p.exec with
  | some e => execProbe e.command
  | none =>
  match p.httpGet with
  | some g =>
    let scheme := String.mk (toLowerList g.scheme.data)
    let host := if g.host = "" then status.podIP else g.host
    match extractPort g.port container with
    | (_, some e) => ⟨.unknown, "", some e⟩
    | (port, none) =>
      let targetURL := formatURL scheme host port g.path
      let headers := buildHeader g.httpHeaders
      doHTTPProbe (mkGetRequest (urlString targetURL)) (some headers) client
  | none =>
  match p.httpPost with
  | some q =>
    let scheme := String.mk (toLowerList q.scheme.data)
    let host := if q.host = "" then status.podIP else q.host
    match extractPort q.port container with
    | (_, some e) => ⟨.unknown, "", some e⟩
    | (port, none) =>
      let targetURL := formatURL scheme host port q.path
      let headers := buildHeader q.httpHeaders
      DoHTTPPostProbe targetURL (some headers) client q.form q.body
  | none =>
  match p.tcpSocket with
  | some t =>
    match extractPort t.port container with
    | (_, some e) => ⟨.unknown, "", some e⟩
    | (port, none) =>
      let host := if t.host = "" then status.podIP else t.host
      tcpProbe host port
  | none =>
    ⟨.unknown, "",
      some ("missing probe handler for " ++ formatPod pod ++ ":" ++
        container.name)⟩

/-! ## The current dispatcher revision (modelled from the spec)

The repository's current `RunProbe`/`extractPort` take the whole pod
record and a container name and reject an absent pod; that revision of
probe/prober.go is not among the sources — only its tests are.  The
definitions below are therefore modelled from the spec (§4.1: port
resolution "fails with an `InvalidTarget` error if the environmental
context (e.g., the workload record) required to resolve host/port is
absent (nil)"), with the error strings the in-tree tests expect. -/

/-- The pod record of the current dispatcher revision: its containers and
its IP. -/
structure PodV2 where
  containers : List Container := []
  podIP : String := ""
deriving DecidableEq, Repr

/-- Modelled from the spec: the current `extractPort(param, pod,
containerName)` (absent from the sources).  A nil pod fails with the
`invalid pod` error regardless of the port reference's shape; an unknown
container name fails with the `container not found` error; otherwise the
in-tree `extractPort` resolution applies to the named container. -/
def extractPodPort (param : IntOrString) (pod : Option PodV2)
    (containerName : String) : Int × Option String :=
  match pod with
  | none => (-1, some "failed to extract port. invalid pod")
  | some pod =>
    match pod.containers.find? (fun c => c.name = containerName) with
    | none => (-1, some "failed to extract port. container not found")
    | some c => extractPort param c

/-- Modelled from the spec: the current `RunProbe(p, pod, containerName,
timeout)` (absent from the sources).  Identical branch selection to the
in-tree revision, with ports resolved through `extractPodPort` and the
default host taken from the pod record; a port-resolution error returns
`(Unknown, "", err)`. -/
def runProbeV2 (p : Handler) (pod : Option PodV2) (containerName : String)
    (execProbe : List String → ProbeOutcome)
    (client : Request → Except String NetResponse)
    (tcpProbe : String → Int → ProbeOutcome) : ProbeOutcome :=
  match p.exec with
  | some e => execProbe e.command
  | none =>
  match p.httpGet with
  | some g =>
    let scheme := String.mk (toLowerList g.scheme.data)
    let host := if g.host = "" then (pod.map (·.podIP)).getD "" else g.host
    match extractPodPort g.port pod containerName with
    | (_, some e) => ⟨.unknown, "", some e⟩
    | (port, none) =>
      let targetURL := formatURL scheme host port g.path
      let headers := buildHeader g.httpHeaders
      doHTTPProbe (mkGetRequest (urlString targetURL)) (some headers) client
  | none =>
  match p.httpPost with
  | some q =>
    let scheme := String.mk (toLowerList q.scheme.data)
    let host := if q.host = "" then (pod.map (·.podIP)).getD "" else q.host
    match extractPodPort q.port pod containerName with
    | (_, some e) => ⟨.unknown, "", some e⟩
    | (port, none) =>
      let targetURL := formatURL scheme host port q.path
      let headers := buildHeader q.httpHeaders
      DoHTTPPostProbe targetURL (some headers) client q.form q.body
  | none =>
  match p.tcpSocket with
  | some t =>
    match extractPodPort t.port pod containerName with
    | (_, some e) => ⟨.unknown, "", some e⟩
    | (port, none) =>
      let host := if t.host = "" then (pod.map (·.podIP)).getD "" else t.host
      tcpProbe host port
  | none =>
    ⟨.unknown, "", some "missing probe handler"⟩

/-- The path shapes a health-check target is expected to have (used to
state the URL-building property): no fragment or control bytes; the part
before the first `?` is empty or absolute (and not protocol-relative) and
consists of characters that path-escaping leaves alone; the query part is
carried verbatim. -/
def validProbePath (p : String) : Bool :=
  let pp := (splitQuery p.data).1
  decide ('#' ∉ p.data) && !(containsCTL p.data) &&
  decide (pp = [] ∨ pp.head? = some '/') &&
  !(decide (pp.take 2 = ['/', '/'])) &&
  (pp.all fun c => !(shouldEscape c .path) && c != '%')

end KmodProber

/-! ## Theorems -/

namespace KmodProber

theorem cutAt_of_not_mem {sep : Char} {l : List Char} (h : sep ∉ l) :
    cutAt sep l = (l, none) := by
  induction l with
  | nil => rfl
  | cons c rest ih =>
    have hc : c ≠ sep := fun he => h (he ▸ List.mem_cons_self c rest)
    have hr : sep ∉ rest := fun hm => h (List.mem_cons_of_mem c hm)
    simp only [cutAt, if_neg hc, ih hr]

theorem cutAt_recombine (sep : Char) (l : List Char) :
    (cutAt sep l).1 ++
      (match (cutAt sep l).2 with
       | some b => sep :: b
       | none => []) = l ∧
    sep ∉ (cutAt sep l).1 := by
  induction l with
  | nil => exact ⟨rfl, List.not_mem_nil sep⟩
  | cons c rest ih =>
    by_cases hc : c = sep
    · subst hc
      simp [cutAt]
    · simp only [cutAt, if_neg hc]
      refine ⟨?_, ?_⟩
      · simpa using ih.1
      · intro hm
        rcases List.mem_cons.mp hm with h' | h'
        · exact hc h'.symm
        · exact ih.2 h'

theorem splitQuery_recombine (l : List Char) :
    (splitQuery l).1 ++
      (if (splitQuery l).2.1 ∨ (splitQuery l).2.2 ≠ [] then
        '?' :: (splitQuery l).2.2
       else []) = l ∧
    '?' ∉ (splitQuery l).1 := by
  simp only [splitQuery]
  split
  · rename_i hcond
    obtain ⟨hlast, hcount⟩ := hcond
    have hl : l.dropLast ++ ['?'] = l :=
      List.dropLast_append_getLast? '?' (Option.mem_def.mpr hlast)
    have hnot : '?' ∉ l.dropLast := by
      intro hm
      have hpos : 0 < l.dropLast.count '?' := List.count_pos_iff.mpr hm
      have heq : l.count '?' = l.dropLast.count '?' + 1 := by
        conv_lhs => rw [← hl]
        simp [List.count_append]
      omega
    exact ⟨by simpa using hl, hnot⟩
  · rename_i hcond
    rcases hsplit : cutAt '?' l with ⟨a, bopt⟩
    have hrec := cutAt_recombine '?' l
    rw [hsplit] at hrec
    rcases bopt with _ | b
    · simpa using hrec
    · have hl : a ++ '?' :: b = l := by simpa using hrec.1
      have hb : b ≠ [] := by
        intro hbe
        subst hbe
        apply hcond
        refine ⟨?_, ?_⟩
        · rw [← hl]
          simp
        · rw [← hl, List.count_append]
          simp [List.count_eq_zero.mpr hrec.2]
      simp only [hb, ne_eq, not_false_iff, or_true, if_pos]
      exact ⟨hl, hrec.2⟩

theorem escapeList_id (mode : EncodeMode) (l : List Char)
    (h : ∀ c ∈ l, shouldEscape c mode = false) : escapeList mode l = l := by
  induction l with
  | nil => rfl
  | cons c rest ih =>
    simp only [escapeList, h c (List.mem_cons_self c rest), if_false,
      Bool.false_eq_true]
    simpa using ih fun d hd => h d (List.mem_cons_of_mem c hd)

theorem unescapeList_path_id (l : List Char) (h : '%' ∉ l) :
    unescapeList .path l = .ok l := by
  induction l with
  | nil => rfl
  | cons c rest ih =>
    have hc : c ≠ '%' := fun he => h (he ▸ List.mem_cons_self c rest)
    have hr : '%' ∉ rest := fun hm => h (List.mem_cons_of_mem c hm)
    rw [unescapeList.eq_def]
    simp only [if_neg hc]
    rw [if_neg (by simp), ih hr]
    rfl

theorem getSchemeAux_stop (l : List Char)
    (h : l.head? = none ∨ l.head? = some '/' ∨ l.head? = some '?') :
    getSchemeAux [] l = .ok none := by
  cases l with
  | nil => rfl
  | cons c rest =>
    rcases h with h | h | h
    · simp at h
    · simp only [List.head?_cons, Option.some.injEq] at h
      subst h
      rfl
    · simp only [List.head?_cons, Option.some.injEq] at h
      subst h
      rfl

theorem setPathParts_id (p : List Char)
    (hp : ∀ c ∈ p, shouldEscape c .path = false ∧ c ≠ '%') :
    setPathParts p = .ok (p, []) := by
  have hnp : '%' ∉ p := fun hm => (hp '%' hm).2 rfl
  simp only [setPathParts, unescapeList_path_id p hnp, Except.map]
  rw [escapeList_id .path p fun c hc => (hp c hc).1]
  simp

theorem digitChar_mem (m : Nat) (h : m < 10) :
    Nat.digitChar m ∈ ['0', '1', '2', '3', '4', '5', '6', '7', '8', '9'] := by
  interval_cases m <;> decide

theorem toDigitsCore_mem (fuel : Nat) :
    ∀ (n : Nat) (acc : List Char),
      (∀ c ∈ acc, c ∈ ['0', '1', '2', '3', '4', '5', '6', '7', '8', '9']) →
      ∀ c ∈ Nat.toDigitsCore 10 fuel n acc,
        c ∈ ['0', '1', '2', '3', '4', '5', '6', '7', '8', '9'] := by
  induction fuel with
  | zero =>
    intro n acc hacc c hc
    exact hacc c hc
  | succ fuel ih =>
    intro n acc hacc c hc
    rw [Nat.toDigitsCore] at hc
    split at hc
    · rcases List.mem_cons.mp hc with h' | h'
      · exact h' ▸ digitChar_mem _ (Nat.mod_lt n (by omega))
      · exact hacc c h'
    · refine ih (n / 10) _ ?_ c hc
      intro d hd
      rcases List.mem_cons.mp hd with h' | h'
      · exact h' ▸ digitChar_mem _ (Nat.mod_lt n (by omega))
      · exact hacc d h'

theorem toString_int_chars (i : Int) :
    ∀ c ∈ (toString i).data,
      c ∈ ['-', '0', '1', '2', '3', '4', '5', '6', '7', '8', '9'] := by
  have hnat : ∀ n : Nat, ∀ c ∈ (Nat.repr n).data,
      c ∈ ['0', '1', '2', '3', '4', '5', '6', '7', '8', '9'] := by
    intro n c hc
    have hd : (Nat.repr n).data = Nat.toDigits 10 n := rfl
    rw [hd, Nat.toDigits] at hc
    exact toDigitsCore_mem _ n [] (by simp) c hc
  intro c hc
  cases i with
  | ofNat m =>
    have hd : toString (Int.ofNat m) = Nat.repr m := rfl
    rw [hd] at hc
    exact List.mem_cons_of_mem _ (hnat m c hc)
  | negSucc m =>
    have hd : toString (Int.negSucc m) = "-" ++ Nat.repr (m + 1) := rfl
    rw [hd] at hc
    rcases List.mem_append.mp hc with h' | h'
    · simp at h'
      simp [h']
    · exact List.mem_cons_of_mem _ (hnat (m + 1) c h')

theorem toString_int_host_safe (i : Int) :
    ∀ c ∈ (toString i).data, shouldEscape c .host = false := by
  intro c hc
  have hm := toString_int_chars i c hc
  fin_cases hm <;> decide

theorem mk_ne_empty_iff (l : List Char) : (String.mk l ≠ "") ↔ l ≠ [] := by
  simp [String.ext_iff]

theorem urlParse_valid (p : String) (hv : validProbePath p = true) :
    urlParse p = .ok { path := String.mk (splitQuery p.data).1,
                       forceQuery := (splitQuery p.data).2.1,
                       rawQuery := String.mk (splitQuery p.data).2.2 } := by
  simp only [validProbePath, Bool.and_eq_true, decide_eq_true_eq,
    Bool.not_eq_true', List.all_eq_true, Bool.and_eq_true,
    bne_iff_ne, Bool.not_eq_true] at hv
  obtain ⟨⟨⟨⟨hhash, hctl⟩, hhead⟩, hslash2⟩, hchars⟩ := hv
  have hchars' : ∀ c ∈ (splitQuery p.data).1,
      shouldEscape c .path = false ∧ c ≠ '%' := by
    intro c hc
    have hcc := hchars c hc
    exact ⟨by simpa using hcc.1, hcc.2⟩
  have hrec := splitQuery_recombine p.data
  have hheadraw : p.data.head? = none ∨ p.data.head? = some '/' ∨
      p.data.head? = some '?' := by
    rcases hhead with hpp | hpp
    · rw [← hrec.1, hpp]
      simp only [List.nil_append]
      split
      · right; right; rfl
      · left; rfl
    · right; left
      rw [← hrec.1]
      rcases hnil : (splitQuery p.data).1 with _ | ⟨c, rest⟩
      · rw [hnil] at hpp
        simp at hpp
      · rw [hnil] at hpp
        simp only [List.head?_cons, Option.some.injEq] at hpp
        simp [hpp]
  rw [urlParse]
  rw [cutAt_of_not_mem hhash]
  simp only
  rw [urlParseMain]
  rw [if_neg (by simp [hctl])]
  rw [getSchemeAux_stop p.data hheadraw]
  simp only [toLowerList, List.map_nil]
  rw [if_neg (by simp)]
  have hnocolon : ¬ (((splitQuery p.data).1.head? ≠ some '/') ∧
      ((cutAt '/' (splitQuery p.data).1).1).contains ':' = true) := by
    rcases hhead with hpp | hpp
    · rw [hpp]
      simp [cutAt]
    · rw [hpp]
      simp
  rw [if_neg hnocolon]
  have hauth : ¬ ((([] : List Char) ≠ [] ∨
      ¬ ((splitQuery p.data).1.take 3 = ['/', '/', '/'])) ∧
      (splitQuery p.data).1.take 2 = ['/', '/']) := by
    intro h
    exact (of_decide_eq_false hslash2) h.2
  rw [if_neg hauth]
  simp only
  rw [setPathParts_id _ hchars']

theorem formatURL_valid (scheme host : String) (port : Int) (p : String)
    (hscheme : scheme ≠ "")
    (hhostc : host.data.contains ':' = false)
    (hhostsafe : ∀ c ∈ host.data, shouldEscape c .host = false)
    (hv : validProbePath p = true) :
    urlString (formatURL scheme host port p) =
      scheme ++ "://" ++ host ++ ":" ++ toString port ++ p := by
  have hchars : ∀ c ∈ (splitQuery p.data).1,
      shouldEscape c .path = false ∧ c ≠ '%' := by
    simp only [validProbePath, Bool.and_eq_true, decide_eq_true_eq,
      Bool.not_eq_true', List.all_eq_true, Bool.and_eq_true,
      bne_iff_ne, Bool.not_eq_true] at hv
    intro c hc
    have hcc := hv.2 c hc
    exact ⟨by simpa using hcc.1, hcc.2⟩
  have hhead : (splitQuery p.data).1 = [] ∨
      (splitQuery p.data).1.head? = some '/' := by
    simp only [validProbePath, Bool.and_eq_true, decide_eq_true_eq] at hv
    exact hv.1.1.2
  rw [formatURL, urlParse_valid p hv]
  simp only
  set pp := (splitQuery p.data).1 with hpp
  set fq := (splitQuery p.data).2.1 with hfq
  set q := (splitQuery p.data).2.2 with hq
  rw [joinHostPort]
  rw [if_neg (by simp only [hhostc]; exact Bool.false_ne_true)]
  have hhostdata : (host ++ ":" ++ toString port).data =
      host.data ++ ':' :: (toString port).data := by
    simp [String.data_append]
  have hhostne : (host ++ ":" ++ toString port) ≠ "" := by
    intro he
    have hz : (host ++ ":" ++ toString port).data = ([] : List Char) := by
      rw [he]
    rw [hhostdata] at hz
    simp at hz
  have hhostesc : escapeList .host (host ++ ":" ++ toString port).data =
      (host ++ ":" ++ toString port).data := by
    apply escapeList_id
    rw [hhostdata]
    intro c hc
    rcases List.mem_append.mp hc with h' | h'
    · exact hhostsafe c h'
    · rcases List.mem_cons.mp h' with h'' | h''
      · subst h''
        decide
      · exact toString_int_host_safe port c h''
  have hesc : escapedPath
      (⟨scheme, "", "", host ++ ":" ++ toString port, String.mk pp, "", fq,
        String.mk q, ""⟩ : GoURL) = String.mk pp := by
    rw [escapedPath, if_neg (by simp [rawPathValid])]
    rw [escapeList_id .path pp fun c hc => (hchars c hc).1]
  rw [urlString]
  simp only [ne_eq, hesc]
  rw [if_neg (by simp), if_pos hscheme, if_pos (Or.inl hscheme)]
  rw [if_pos (Or.inl hhostne)]
  rw [if_neg (by simp)]
  rw [hhostesc]
  have hrec := splitQuery_recombine p.data
  have hbigne : scheme ++ ":" ++
      ("//" ++ "" ++ String.mk (host ++ ":" ++ toString port).data) ≠ "" := by
    intro he
    have hd := congrArg String.data he
    simp [String.data_append] at hd
  rw [if_neg (by
    intro h
    exact hbigne h.1)]
  have hslash : ¬ (¬ (String.mk pp) = "" ∧ ¬ pp.head? = some '/' ∧
      ¬ (host ++ ":" ++ toString port) = "") := by
    rcases hhead with hppn | hpph
    · intro h
      exact h.1 (by rw [hppn])
    · intro h
      exact h.2.1 hpph
  rw [if_neg hslash]
  simp only [not_true, if_false]
  apply String.ext
  by_cases hcase : fq = true ∨ q ≠ []
  · rw [if_pos (show fq = true ∨ ¬(String.mk q) = "" by
      rcases hcase with h | h
      · exact Or.inl h
      · exact Or.inr ((mk_ne_empty_iff q).mpr h))]
    have hp := hrec.1
    rw [if_pos hcase] at hp
    have d1 : ("://" : String).data = [':', '/', '/'] := rfl
    have d2 : (":" : String).data = [':'] := rfl
    have d3 : ("//" : String).data = ['/', '/'] := rfl
    have d4 : ("?" : String).data = ['?'] := rfl
    have d5 : ("" : String).data = [] := rfl
    simp only [String.data_append, d1, d2, d3, d4, d5]
    rw [← hp]
    simp
  · rw [if_neg (show ¬(fq = true ∨ ¬(String.mk q) = "") by
      intro h
      rcases h with h | h
      · exact hcase (Or.inl h)
      · exact hcase (Or.inr ((mk_ne_empty_iff q).mp h)))]
    have hp := hrec.1
    rw [if_neg hcase] at hp
    rw [List.append_nil] at hp
    have d1 : ("://" : String).data = [':', '/', '/'] := rfl
    have d2 : (":" : String).data = [':'] := rfl
    have d3 : ("//" : String).data = ['/', '/'] := rfl
    have d5 : ("" : String).data = [] := rfl
    simp only [String.data_append, d1, d2, d3, d5]
    rw [← hp]
    simp

/-- C2: the shared executor's HTTP result classification is a pure
function of the response status code — for any request, headers and body,
a code in `[200,300)` yields Success, a code in `[300,400)` that reaches
the executor yields Warning with the (bounded) response body as
diagnostic, and any code `< 200` or `≥ 400` yields Failure with the
diagnostic `"HTTP probe failed with statuscode: <code>"`; the boundary
codes 199/300/399/400 therefore fall outside Success while 200 and 299
fall inside. -/
theorem doHTTPProbe_statusCode_classification (req : Request)
    (headers : Option HeaderMap) (code : Int) (dat : List Char) :
    let out := doHTTPProbe req headers (fun _ => .ok ⟨code, .ok dat, none⟩)
    (200 ≤ code ∧ code < 300 →
      out = ⟨.success, String.mk (dat.take maxRespBodyLength), none⟩) ∧
    (300 ≤ code ∧ code < 400 →
      out = ⟨.warning, String.mk (dat.take maxRespBodyLength), none⟩) ∧
    (code < 200 ∨ 400 ≤ code →
      out = ⟨.failure, "HTTP probe failed with statuscode: " ++ toString code,
        none⟩) := by
  refine ⟨fun h => ?_, fun h => ?_, fun h => ?_⟩ <;>
    simp only [doHTTPProbe, readAtMost] <;> split
  · split
    · omega
    · rfl
  · omega
  · split
    · rfl
    · omega
  · omega
  · omega
  · rfl

/-- Witness for C2 at the boundary code 199. -/
theorem doHTTPProbe_statusCode_classification_witness :
    doHTTPProbe ⟨"GET", "u", "", [], none⟩ none
      (fun _ => .ok ⟨199, .ok [], none⟩) =
      ⟨.failure, "HTTP probe failed with statuscode: 199", none⟩ :=
  (doHTTPProbe_statusCode_classification ⟨"GET", "u", "", [], none⟩ none
    199 []).2.2 (by omega)

/-- C3: port resolution — a numeric reference is returned directly for
any container (the declared ports are never consulted); a string
reference returns the container port of the first declared port whose
name matches exactly; a string matching no declared name but parseable
as a decimal integer returns that integer; and on each of these paths a
resolved value outside `(0, 65536)` fails with the
`invalid port number` error. -/
theorem extractPort_resolution (container : Container) :
    (∀ i : Int, extractPort (.int i) container =
      if 0 < i ∧ i < 65536 then (i, none)
      else (i, some ("invalid port number: " ++ toString i))) ∧
    (∀ s pt, container.ports.find? (fun p => p.name = s) = some pt →
      extractPort (.str s) container =
        if 0 < pt.containerPort ∧ pt.containerPort < 65536 then
          (pt.containerPort, none)
        else (pt.containerPort,
          some ("invalid port number: " ++ toString pt.containerPort))) ∧
    (∀ s n, container.ports.find? (fun p => p.name = s) = none →
      goAtoi s = .ok n →
      extractPort (.str s) container =
        if 0 < n ∧ n < 65536 then (n, none)
        else (n, some ("invalid port number: " ++ toString n))) := by
  refine ⟨fun i => ?_, fun s pt hfind => ?_, fun s n hfind hatoi => ?_⟩
  · simp only [extractPort]
  · simp only [extractPort, findPortByName, hfind]
  · simp only [extractPort, findPortByName, hfind, hatoi]

/-- Witness for C3: a port declared by name with value 65538 resolves by
name and then fails range validation. -/
theorem extractPort_resolution_witness :
    ((⟨"fizz", [⟨"fizz-port", 65538⟩]⟩ : Container).ports.find?
        (fun p => p.name = "fizz-port") = some ⟨"fizz-port", 65538⟩) ∧
    extractPort (.str "fizz-port") ⟨"fizz", [⟨"fizz-port", 65538⟩]⟩ =
      (65538, some "invalid port number: 65538") := by
  refine ⟨by decide, ?_⟩
  have h := (extractPort_resolution ⟨"fizz", [⟨"fizz-port", 65538⟩]⟩).2.1
    "fizz-port" ⟨"fizz-port", 65538⟩ (by decide)
  simpa using h

/-- C8: response-body bounding — a body of exactly `maxRespBodyLength`
bytes is returned whole, a body one byte over is silently truncated to
exactly the budget length, and in both cases the probe proceeds with the
(possibly truncated) bytes and returns a nil error. -/
theorem doHTTPProbe_body_truncation (req : Request)
    (headers : Option HeaderMap) (exact over : List Char)
    (hexact : exact.length = maxRespBodyLength)
    (hover : over.length = maxRespBodyLength + 1) :
    doHTTPProbe req headers (fun _ => .ok ⟨200, .ok exact, none⟩) =
      ⟨.success, String.mk exact, none⟩ ∧
    doHTTPProbe req headers (fun _ => .ok ⟨200, .ok over, none⟩) =
      ⟨.success, String.mk (over.take maxRespBodyLength), none⟩ ∧
    (over.take maxRespBodyLength).length = maxRespBodyLength := by
  refine ⟨?_, ?_, ?_⟩
  · simp only [doHTTPProbe, readAtMost]
    rw [List.take_of_length_le (le_of_eq hexact)]
    norm_num
  · simp only [doHTTPProbe, readAtMost]
    norm_num
  · rw [List.length_take, hover]
    omega

/-- Witness for C8 with a body of exactly the 10 KiB budget. -/
theorem doHTTPProbe_body_truncation_witness :
    (List.replicate (10 * 1024) 'a').length = maxRespBodyLength ∧
    (List.replicate (10 * 1024 + 1) 'a').length = maxRespBodyLength + 1 ∧
    doHTTPProbe ⟨"GET", "u", "", [], none⟩ none
      (fun _ => .ok ⟨200, .ok (List.replicate (10 * 1024) 'a'), none⟩) =
      ⟨.success, String.mk (List.replicate (10 * 1024) 'a'), none⟩ := by
  refine ⟨by rw [List.length_replicate]; rfl,
    by rw [List.length_replicate]; rfl, ?_⟩
  exact (doHTTPProbe_body_truncation ⟨"GET", "u", "", [], none⟩ none
    (List.replicate (10 * 1024) 'a') (List.replicate (10 * 1024 + 1) 'a')
    (by rw [List.length_replicate]; rfl)
    (by rw [List.length_replicate]; rfl)).1

/-- C9: the POST request carries at most one body — a supplied form wins
(URL-encoded body, `Content-Type: application/x-www-form-urlencoded`)
even over a raw body; otherwise a non-empty raw body is carried with
`Content-Type: application/json`; otherwise the request body is empty
(and no Content-Type is set). -/
theorem postRequest_body_policy (u : GoURL)
    (form : List (String × List String)) (body : String) :
    (mkPostRequest u (some form) body).body = some (urlValuesEncode form) ∧
    headerGet (mkPostRequest u (some form) body).header "Content-Type" =
      "application/x-www-form-urlencoded" ∧
    (body ≠ "" →
      (mkPostRequest u none body).body = some body ∧
      headerGet (mkPostRequest u none body).header "Content-Type" =
        "application/json") ∧
    (mkPostRequest u none "").body = none ∧
    (mkPostRequest u none "").header = [] ∧
    (∀ headers client, DoHTTPPostProbe u headers client (some form) body =
      doHTTPProbe (mkPostRequest u (some form) body) headers client) := by
  have hbody : ∀ b : String, b ≠ "" → 0 < b.length := by
    intro b hb
    cases b with
    | mk bdata =>
      cases bdata with
      | nil => exact absurd rfl hb
      | cons c cs => simp [String.length]
  refine ⟨rfl, rfl, fun h => ?_, rfl, rfl, fun _ _ => rfl⟩
  simp only [mkPostRequest, if_pos (hbody body h)]
  exact ⟨trivial, rfl⟩

/-- Witness for C9 with a raw JSON body and no form. -/
theorem postRequest_body_policy_witness :
    ("raw-body" : String) ≠ "" ∧
    (mkPostRequest (⟨"", "", "", "", "", "", false, "", ""⟩ : GoURL) none
      "raw-body").body = some "raw-body" ∧
    headerGet (mkPostRequest (⟨"", "", "", "", "", "", false, "", ""⟩ : GoURL)
      none "raw-body").header "Content-Type" = "application/json" := by
  refine ⟨by decide, ?_, ?_⟩
  · exact ((postRequest_body_policy
      (⟨"", "", "", "", "", "", false, "", ""⟩ : GoURL) []
      "raw-body").2.2.1 (by decide)).1
  · exact ((postRequest_body_policy
      (⟨"", "", "", "", "", "", false, "", ""⟩ : GoURL) []
      "raw-body").2.2.1 (by decide)).2

/-- C10: the executor's header policy — the default User-Agent
`kmodules.xyz/client-go/release-11.0` is installed exactly when the
supplied header map lacks the `User-Agent` key (a present entry
suppresses it even with an empty value, since only key presence is
tested); a nil map is replaced by a fresh one so the default still
applies; and the request host is overridden exactly when the `Host`
header value is non-empty. -/
theorem doHTTPProbe_header_policy (req : Request)
    (headers : Option HeaderMap) :
    let sent := effectiveRequest req headers
    (headerHas headers "User-Agent" = false →
      sent.header = headerSet (headers.getD []) "User-Agent"
        "kmodules.xyz/client-go/release-11.0") ∧
    (headerHas headers "User-Agent" = true → sent.header = headers.getD []) ∧
    (headers = none →
      sent.header = [("User-Agent", ["kmodules.xyz/client-go/release-11.0"])]) ∧
    (headerGet sent.header "Host" ≠ "" →
      sent.host = headerGet sent.header "Host") ∧
    (headerGet sent.header "Host" = "" → sent.host = req.host) ∧
    sent.method = req.method ∧ sent.body = req.body := by
  refine ⟨fun h => ?_, fun h => ?_, fun h => ?_, fun h => ?_, fun h => ?_,
    ?_, ?_⟩
  · simp only [effectiveRequest, h, Bool.false_eq_true, if_false]
    split <;> rfl
  · simp only [effectiveRequest, h, if_true]
    split <;> rfl
  · subst h
    simp only [effectiveRequest, headerHas]
    split
    · simp_all
    · split <;> rfl
  · revert h
    simp only [effectiveRequest]
    split <;> split <;> simp_all
  · revert h
    simp only [effectiveRequest]
    split <;> split <;> simp_all
  · simp only [effectiveRequest]
    split <;> split <;> rfl
  · simp only [effectiveRequest]
    split <;> split <;> rfl

/-- Witness for C10: a `User-Agent` entry whose value is the empty string
suppresses the default. -/
theorem doHTTPProbe_header_policy_witness :
    headerHas (some [("User-Agent", [""])]) "User-Agent" = true ∧
    (effectiveRequest ⟨"GET", "u", "orig.host", [], none⟩
      (some [("User-Agent", [""])])).header = [("User-Agent", [""])] := by
  refine ⟨by decide, ?_⟩
  have h := (doHTTPProbe_header_policy ⟨"GET", "u", "orig.host", [], none⟩
    (some [("User-Agent", [""])])).2.1 (by decide)
  simpa using h

/-- C4 counterexample: with `followNonLocalRedirects = false` the
installed checker does NOT follow every same-host redirect — at the 10th
hop of a same-host chain it returns a terminal error instead, so
"follows if and only if the target hostname equals the first request's
hostname" fails in the `if` direction. -/
theorem localRedirectChecker_cap_refutes_iff :
    redirectChecker false = some localRedirectChecker ∧
    localRedirectChecker ⟨"h", "/a"⟩ (List.replicate 10 ⟨"h", "/b"⟩) =
      .checkErr "stopped after 10 redirects" ∧
    (⟨"h", "/a"⟩ : SimpleURL).hostname =
      ((List.replicate 10 (⟨"h", "/b"⟩ : SimpleURL)).headD
        ⟨"", ""⟩).hostname := by
  refine ⟨rfl, by decide, by decide⟩

/-- C4 (amended): with `followNonLocalRedirects = false` the installed
checker follows a redirect iff the target hostname equals the hostname of
the first request in the chain AND fewer than 10 requests have been sent;
a cross-host redirect always stops with `ErrUseLastResponse`, the client
then returns the 3xx response itself, and the executor classifies that
outcome as Warning. -/
theorem redirect_local_policy :
    redirectChecker false = some localRedirectChecker ∧
    (∀ req via, localRedirectChecker req via = .follow ↔
      req.hostname = (via.headD ⟨"", ""⟩).hostname ∧ via.length < 10) ∧
    (∀ req via, req.hostname ≠ (via.headD ⟨"", ""⟩).hostname →
      localRedirectChecker req via = .useLastResponse) ∧
    (∀ net u target fuel code dat, net u = ⟨code, .ok dat, some target⟩ →
      target.hostname ≠ u.hostname → 300 ≤ code → code < 400 →
      httpGetProbe false net (fuel + 1) u none =
        ⟨.warning, String.mk (dat.take maxRespBodyLength), none⟩) := by
  refine ⟨rfl, fun req via => ?_, fun req via h => ?_, ?_⟩
  · simp only [localRedirectChecker]
    split
    · simp_all
    · split <;> simp_all
  · simp only [localRedirectChecker, if_pos h]
  · intro net u target fuel code dat hnet hhost h300 h400
    simp only [httpGetProbe, doHTTPProbe, clientDo, redirectChecker, if_neg,
      Bool.false_eq_true, not_false_iff, Option.getD, hnet]
    simp only [localRedirectChecker]
    rw [if_pos (by simpa using hhost)]
    simp only [readAtMost]
    rw [if_pos ⟨by omega, h400⟩, if_pos h300]

/-- Witness for C4: a cross-host 302 is returned as-is and classified
Warning. -/
theorem redirect_local_policy_witness :
    httpGetProbe false
      (fun u => if u.hostname = "a" then ⟨302, .ok [], some ⟨"b", "/x"⟩⟩
        else ⟨200, .ok [], none⟩) (4 + 1) ⟨"a", "/"⟩ none =
      ⟨.warning, "", none⟩ := by
  have h := redirect_local_policy.2.2.2
    (fun u => if u.hostname = "a" then ⟨302, .ok [], some ⟨"b", "/x"⟩⟩
      else ⟨200, .ok [], none⟩) ⟨"a", "/"⟩ ⟨"b", "/x"⟩ 4 302 []
    (by simp) (by decide) (by omega) (by omega)
  simpa using h

/-- C5 counterexample: a redirect chain that exceeds the 10-hop cap under
`followNonLocalRedirects = true` makes `client.Do` fail, but the probe
folds that failure into `Result = Failure` with the error text as
diagnostic and a NIL error — no caller-visible error is surfaced. -/
theorem redirect_cap_folded_counterexample :
    clientDo (redirectChecker true)
      (fun _ => ⟨302, .ok [], some ⟨"h", "/loop"⟩⟩) 20 ⟨"h", "/loop"⟩ [] =
      .error "stopped after 10 redirects" ∧
    httpGetProbe true (fun _ => ⟨302, .ok [], some ⟨"h", "/loop"⟩⟩) 20
      ⟨"h", "/loop"⟩ none =
      ⟨.failure, "stopped after 10 redirects", none⟩ := by
  exact ⟨rfl, rfl⟩

/-- C5 (amended): under the unlimited-follow policy the default checker
errs exactly when 10 requests have already been sent, and whenever the
redirect-following client call fails the executor returns
`Result = Failure` with the error text as diagnostic and `error = nil` —
no redirect situation is surfaced as a non-nil error. -/
theorem redirect_cap_error_policy (net : SimpleURL → NetResponse)
    (fuel : Nat) (u : SimpleURL) (headers : Option HeaderMap) (e : String)
    (h : clientDo (redirectChecker true) net fuel u [] = .error e) :
    httpGetProbe true net fuel u headers = ⟨.failure, e, none⟩ ∧
    (∀ req via, defaultCheckRedirect req via =
      .checkErr "stopped after 10 redirects" ↔ 10 ≤ via.length) := by
  constructor
  · simp only [httpGetProbe, doHTTPProbe, h]
  · intro req via
    simp only [defaultCheckRedirect]
    split <;> simp_all

/-- Witness for C5 on a concrete redirect loop. -/
theorem redirect_cap_error_policy_witness :
    httpGetProbe true (fun _ => ⟨302, .ok [], some ⟨"h", "/loop"⟩⟩) 20
      ⟨"h", "/loop"⟩ none =
      ⟨.failure, "stopped after 10 redirects", none⟩ ∧
    defaultCheckRedirect ⟨"h", "/loop"⟩ (List.replicate 10 ⟨"h", "/loop"⟩) =
      .checkErr "stopped after 10 redirects" := by
  have h := redirect_cap_error_policy
    (fun _ => ⟨302, .ok [], some ⟨"h", "/loop"⟩⟩) 20 ⟨"h", "/loop"⟩ none
    "stopped after 10 redirects" rfl
  exact ⟨h.1, (h.2 ⟨"h", "/loop"⟩ (List.replicate 10 ⟨"h", "/loop"⟩)).mpr
    (by simp)⟩

/-- C1 counterexample: a response whose body read fails with an error
other than the truncation limit makes `RunProbe` return a NON-nil error
even though port extraction succeeded and a handler variant was
populated — so "a non-nil error only for pre-flight configuration
failures" does not hold. -/
theorem runProbe_read_error_counterexample :
    runProbe { httpGet := some { port := .int 80, path := "/healthz" } }
      ⟨"pod", "ns", "uid"⟩ ⟨"10.0.0.1"⟩ ⟨"c", []⟩
      (fun _ => ⟨.unknown, "", none⟩)
      (fun _ => .ok ⟨200, .error "read: connection reset by peer", none⟩)
      (fun _ _ => ⟨.unknown, "", none⟩) =
      ⟨.failure, "", some "read: connection reset by peer"⟩ ∧
    extractPort (.int 80) ⟨"c", []⟩ = (80, none) := by
  exact ⟨rfl, rfl⟩

/-- C1 (amended): on the HTTP paths, `RunProbe` returns a non-nil error
only for a pre-flight port-extraction failure (as `Result = Unknown`), a
missing handler, or a response-body read failure other than the
truncation limit (as `Result = Failure` with empty output); every
transport-level `Do` failure (dial error, timeout, TLS failure) and
every successfully-read exchange — non-2xx statuses included — yields a
nil error, the former as `Result = Failure` with the error text as
diagnostic. -/
theorem runProbe_error_policy (pod : Pod) (status : PodStatus)
    (container : Container) (g : HTTPGetAction) (q : HTTPPostAction)
    (execO : List String → ProbeOutcome) (tcpO : String → Int → ProbeOutcome)
    (resp : Except String NetResponse) :
    (∀ e, (extractPort g.port container).2 = some e →
      runProbe ⟨none, some g, none, none⟩ pod status container execO
        (fun _ => resp) tcpO = ⟨.unknown, "", some e⟩) ∧
    (∀ port, extractPort g.port container = (port, none) →
      (∀ e, resp = .error e →
        runProbe ⟨none, some g, none, none⟩ pod status container execO
          (fun _ => resp) tcpO = ⟨.failure, e, none⟩) ∧
      (∀ code dat loc, resp = .ok ⟨code, .ok dat, loc⟩ →
        (runProbe ⟨none, some g, none, none⟩ pod status container execO
          (fun _ => resp) tcpO).error = none) ∧
      (∀ code e loc, resp = .ok ⟨code, .error e, loc⟩ →
        runProbe ⟨none, some g, none, none⟩ pod status container execO
          (fun _ => resp) tcpO = ⟨.failure, "", some e⟩)) ∧
    (∀ e, (extractPort q.port container).2 = some e →
      runProbe ⟨none, none, some q, none⟩ pod status container execO
        (fun _ => resp) tcpO = ⟨.unknown, "", some e⟩) ∧
    (∀ port, extractPort q.port container = (port, none) →
      (∀ e, resp = .error e →
        runProbe ⟨none, none, some q, none⟩ pod status container execO
          (fun _ => resp) tcpO = ⟨.failure, e, none⟩) ∧
      (∀ code dat loc, resp = .ok ⟨code, .ok dat, loc⟩ →
        (runProbe ⟨none, none, some q, none⟩ pod status container execO
          (fun _ => resp) tcpO).error = none) ∧
      (∀ code e loc, resp = .ok ⟨code, .error e, loc⟩ →
        runProbe ⟨none, none, some q, none⟩ pod status container execO
          (fun _ => resp) tcpO = ⟨.failure, "", some e⟩)) ∧
    runProbe ⟨none, none, none, none⟩ pod status container execO
      (fun _ => resp) tcpO =
      ⟨.unknown, "",
        some ("missing probe handler for " ++ formatPod pod ++ ":" ++
          container.name)⟩ := by
  refine ⟨fun e he => ?_,
    fun port hport => ⟨fun e he => ?_, fun code dat loc hr => ?_,
      fun code e loc hr => ?_⟩,
    fun e he => ?_,
    fun port hport => ⟨fun e he => ?_, fun code dat loc hr => ?_,
      fun code e loc hr => ?_⟩, rfl⟩
  · rcases hep : extractPort g.port container with ⟨pv, err⟩
    rw [hep] at he
    simp only at he
    subst he
    simp only [runProbe, hep]
  · subst he
    simp only [runProbe, hport, doHTTPProbe]
  · subst hr
    simp only [runProbe, hport, doHTTPProbe, readAtMost]
    split <;> (try split) <;> rfl
  · subst hr
    simp only [runProbe, hport, doHTTPProbe]
  · rcases hep : extractPort q.port container with ⟨pv, err⟩
    rw [hep] at he
    simp only at he
    subst he
    simp only [runProbe, hep]
  · subst he
    simp only [runProbe, hport, DoHTTPPostProbe, doHTTPProbe]
  · subst hr
    simp only [runProbe, hport, DoHTTPPostProbe, doHTTPProbe, readAtMost]
    split <;> (try split) <;> rfl
  · subst hr
    simp only [runProbe, hport, DoHTTPPostProbe, doHTTPProbe]

/-- Witness for C1: a dial failure is folded into `(Failure, errText,
nil)`. -/
theorem runProbe_error_policy_witness :
    extractPort (.int 80) ⟨"c", []⟩ = (80, none) ∧
    runProbe ⟨none, some { port := .int 80 }, none, none⟩
      ⟨"pod", "ns", "uid"⟩ ⟨"10.0.0.1"⟩ ⟨"c", []⟩
      (fun _ => ⟨.unknown, "", none⟩)
      (fun _ => .error "dial tcp 10.0.0.1:80: connect: connection refused")
      (fun _ _ => ⟨.unknown, "", none⟩) =
      ⟨.failure, "dial tcp 10.0.0.1:80: connect: connection refused",
        none⟩ := by
  refine ⟨by decide, ?_⟩
  exact ((runProbe_error_policy ⟨"pod", "ns", "uid"⟩ ⟨"10.0.0.1"⟩ ⟨"c", []⟩
    { port := .int 80 } { port := .int 80 }
    (fun _ => ⟨.unknown, "", none⟩) (fun _ _ => ⟨.unknown, "", none⟩)
    (.error "dial tcp 10.0.0.1:80: connect: connection refused")).2.1
    80 (by decide)).1 _ rfl

/-- C6: in the current dispatcher revision, a probe invoked with an
absent (nil) pod record fails port resolution with the
`failed to extract port. invalid pod` error for every handler variant
that resolves a port — hence for every port-reference shape — and the
failure reaches the caller as `Result = Unknown` with that non-nil
error. -/
theorem runProbeV2_nil_pod_unknown (cname : String) (g : HTTPGetAction)
    (q : HTTPPostAction) (t : TCPSocketAction)
    (execO : List String → ProbeOutcome)
    (client : Request → Except String NetResponse)
    (tcpO : String → Int → ProbeOutcome) :
    runProbeV2 ⟨none, some g, none, none⟩ none cname execO client tcpO =
      ⟨.unknown, "", some "failed to extract port. invalid pod"⟩ ∧
    runProbeV2 ⟨none, none, some q, none⟩ none cname execO client tcpO =
      ⟨.unknown, "", some "failed to extract port. invalid pod"⟩ ∧
    runProbeV2 ⟨none, none, none, some t⟩ none cname execO client tcpO =
      ⟨.unknown, "", some "failed to extract port. invalid pod"⟩ := by
  exact ⟨rfl, rfl, rfl⟩

/-- C7 counterexample: `formatURL` does not concatenate every path
verbatim — a relative path such as `"foo"` is rendered with an inserted
`/`, so the produced URL differs from `scheme://host:port` ++ path. -/
theorem formatURL_relative_path_not_verbatim :
    urlString (formatURL "http" "localhost" 93 "foo") =
      "http://localhost:93/foo" ∧
    "http://localhost:93/foo" ≠
      "http" ++ "://" ++ "localhost" ++ ":" ++ toString (93 : Int) ++
        "foo" := by
  refine ⟨by rfl, by decide⟩

/-- C7 (amended): for every scheme, colon-free host of unescaped
characters, port, and well-formed probe path (empty or starting with `/`
or `?`, free of characters needing path escaping), `formatURL` renders
exactly `scheme://host:port` concatenated with the path verbatim, query
string included; and when the path cannot be parsed as a URL component,
`formatURL` still returns (it never aborts) a URL carrying the path
verbatim in its `Path` field. -/
theorem formatURL_builds_url (scheme host : String) (port : Int)
    (path : String) :
    (scheme ≠ "" → host.data.contains ':' = false →
      (∀ c ∈ host.data, shouldEscape c .host = false) →
      validProbePath path = true →
      urlString (formatURL scheme host port path) =
        scheme ++ "://" ++ host ++ ":" ++ toString port ++ path) ∧
    (∀ e, urlParse path = .error e →
      (formatURL scheme host port path).path = path) ∧
    urlString (formatURL "http" "localhost" 93 "?foo") =
      "http://localhost:93?foo" := by
  refine ⟨fun h1 h2 h3 h4 => formatURL_valid scheme host port path h1 h2 h3 h4,
    fun e he => ?_, by rfl⟩
  simp only [formatURL, he]

/-- Witness for C7 on the spec's own example shapes. -/
theorem formatURL_builds_url_witness :
    validProbePath "/path?bar" = true ∧
    urlString (formatURL "https" "localhost" 93 "/path?bar") =
      "https://localhost:93/path?bar" ∧
    (∃ e, urlParse "%zz" = .error e) ∧
    (formatURL "http" "localhost" 93 "%zz").path = "%zz" := by
  refine ⟨by decide, ?_, ⟨"invalid URL escape \"%zz\"", rfl⟩, ?_⟩
  · have h := (formatURL_builds_url "https" "localhost" 93 "/path?bar").1
      (by decide) (by decide) (by decide) (by decide)
    rw [h]
    rfl
  · exact (formatURL_builds_url "http" "localhost" 93 "%zz").2.1
      "invalid URL escape \"%zz\"" rfl
